import Mathlib

/-!
Verification of the Agent RPC repository (Intercom / Trac network stack).

This file gives a shallow embedding of the three components the claims
touch, translated from the JavaScript sources:

* `src/contract/contract.js` — the service registry (`registerService`,
  `updateService`, `removeService`, `listServices`, `getServiceById`)
  working over the replicated key-value store (`this.get` / `this.put`
  on string keys `services/<id>`, `services_index`, `providers/<addr>`,
  `currentTime`).
* `src/features/rpc-handler/index.js` — the JSON-RPC tool dispatcher
  (`handleMessage` and its helper that parses JSON-RPC 2.0 payloads).
* the protocol file (canonical codec `stableStringify`,
  `normalizeInvitePayload` and the `/sc_invite` TTL / expiry logic).

JavaScript values are embedded as an inductive `JSVal`; machine numbers
are embedded as `Int` (the claims only exercise integral values).
The external key-value store is a list of bindings with last-write-wins
lookup; `put` conses a binding, which has exactly the observable
behaviour (through `get`) of an overwriting store write.
-/

/-! ## Service registry (src/contract/contract.js) -/

/-- A service record, as written by `registerService` (contract.js:119-128).
`timestamp` is the value read from the `currentTime` key, which may be
absent (`null` in JS). -/
structure ServiceRecord where
  serviceId : String
  method : String
  description : String
  priceInTNK : String
  category : String
  providerAddress : String
  timestamp : Option Int
  active : Bool
deriving DecidableEq

/-- Values stored in the replicated key-value store: service records at
`services/<id>`, id arrays at `services_index` / `providers/<addr>`,
and the number stored at `currentTime` by the timer feature. -/
inductive StoreVal where
  | svc (s : ServiceRecord)
  | ids (l : List String)
  | num (n : Int)
deriving DecidableEq

/-- The external key-value store (`this.get` / `this.put`).  A list of
bindings; `kvGet` returns the most recent binding, so `kvPut` by consing
is observationally an overwriting write. -/
def Store : Type := List (String × StoreVal)

instance : DecidableEq Store := by
  unfold Store
  infer_instance

/-- Models `await this.put(key, value)`. -/
def kvPut (st : Store) (k : String) (v : StoreVal) : Store := (k, v) :: st

/-- Models `await this.get(key)`: `none` plays the role of JS `null` (absent key). -/
def kvGet : Store → String → Option StoreVal
  | [], _ => none
  | (k', v) :: tl, k => if k' = k then some v else kvGet tl k

/-- The store key `services/<serviceId>`. -/
def svcKey (serviceId : String) : String := "services/" ++ serviceId

/-- The store key `providers/<providerAddress>`. -/
def provKey (providerAddress : String) : String := "providers/" ++ providerAddress

/-- Models `await this.get(k) || []` followed by `if (!Array.isArray(x)) x = []`
(contract.js:134-135, 140-141): any absent, falsy or non-array value
collapses to the empty array. -/
def getIdsOrEmpty (st : Store) (k : String) : List String :=
  match kvGet st k with
  | some (.ids l) => l
  | _ => []

/-- Models `await this.get(k) || []` followed by `if (Array.isArray(x))` as a
guard (contract.js:204-208, 211-215): the result is `some` exactly when
the subsequent filtered write happens.  An absent key gives `[]` (an
array, so the write happens); a stored non-array truthy value skips the
write; the falsy number `0` collapses to `[]` first. -/
def getIdsIfArray (st : Store) (k : String) : Option (List String) :=
  match kvGet st k with
  | some (.ids l) => some l
  | some (.num n) => if n = 0 then some [] else none
  | some (.svc _) => none
  | none => some []

/-- Errors returned (as `Error` values, not thrown) by the registry
write operations. -/
inductive CtrErr where
  | alreadyExists
  | notFound
  | notAuthorized
deriving DecidableEq

/-- Outcome of a registry write operation: either an `Error` return
(state untouched — the JS methods return before any `put`) or the store
after the operation's `put`s. -/
inductive CtrOut where
  | err (e : CtrErr)
  | ok (st : Store)
deriving DecidableEq

/-- The validated value of a `register_service` transaction
(schema `registerService`, contract.js:25-36). -/
structure RegisterValue where
  serviceId : String
  method : String
  description : String
  priceInTNK : String
  category : Option String
deriving DecidableEq

/-- The validated value of an `update_service` transaction
(schema `updateService`, contract.js:39-49). -/
structure UpdateValue where
  serviceId : String
  description : Option String
  priceInTNK : Option String
  category : Option String
deriving DecidableEq

/-- Models `category || 'general'` (contract.js:124): an absent or empty
(falsy) category becomes `"general"`. -/
def categoryOrGeneral : Option String → String
  | some c => if c = "" then "general" else c
  | none => "general"

/-- Models `async registerService()` (contract.js:104-146).  `caller` is
`this.address`. -/
def registerService (st : Store) (caller : String) (v : RegisterValue) : CtrOut :=
  match kvGet st (svcKey v.serviceId) with
  | some _ => .err .alreadyExists
  | none =>
    let currentTime : Option Int :=
      match kvGet st "currentTime" with
      | some (.num t) => some t
      | _ => none
    let service : ServiceRecord :=
      { serviceId := v.serviceId
        method := v.method
        description := v.description
        priceInTNK := v.priceInTNK
        category := categoryOrGeneral v.category
        providerAddress := caller
        timestamp := currentTime
        active := true }
    let st1 := kvPut st (svcKey v.serviceId) (.svc service)
    let index := getIdsOrEmpty st1 "services_index"
    let st2 := kvPut st1 "services_index" (.ids (index ++ [v.serviceId]))
    let providerServices := getIdsOrEmpty st2 (provKey caller)
    let st3 := kvPut st2 (provKey caller) (.ids (providerServices ++ [v.serviceId]))
    .ok st3

/-- Models `async updateService()` (contract.js:151-176).  A stored non-record
value at the key behaves like an ownership mismatch in JS (its
`providerAddress` member is `undefined`, which never equals the caller
address string). -/
def updateService (st : Store) (caller : String) (v : UpdateValue) : CtrOut :=
  match kvGet st (svcKey v.serviceId) with
  | none => .err .notFound
  | some (.svc s) =>
    if s.providerAddress ≠ caller then .err .notAuthorized
    else
      let s' : ServiceRecord :=
        { s with
          description := v.description.getD s.description
          priceInTNK := v.priceInTNK.getD s.priceInTNK
          category := v.category.getD s.category }
      .ok (kvPut st (svcKey v.serviceId) (.svc s'))
  | some _ => .err .notAuthorized

/-- Models `async removeService()` (contract.js:181-218). -/
def removeService (st : Store) (caller : String) (serviceId : String) : CtrOut :=
  match kvGet st (svcKey serviceId) with
  | none => .err .notFound
  | some (.svc s) =>
    if s.providerAddress ≠ caller then .err .notAuthorized
    else
      let providerAddress := s.providerAddress
      let s' : ServiceRecord := { s with active := false }
      let st1 := kvPut st (svcKey serviceId) (.svc s')
      let st2 :=
        match getIdsIfArray st1 "services_index" with
        | some index => kvPut st1 "services_index" (.ids (index.filter (· ≠ serviceId)))
        | none => st1
      let st3 :=
        match getIdsIfArray st2 (provKey providerAddress) with
        | some providerServices =>
            kvPut st2 (provKey providerAddress) (.ids (providerServices.filter (· ≠ serviceId)))
        | none => st2
      .ok st3
  | some _ => .err .notAuthorized

/-- Models `async listServices()` (contract.js:223-236): the sequence of
records the method collects and reports — index entries whose record
exists and is `active`. -/
def listServices (st : Store) : List ServiceRecord :=
  (getIdsOrEmpty st "services_index").filterMap fun serviceId =>
    match kvGet st (svcKey serviceId) with
    | some (.svc s) => if s.active then some s else none
    | _ => none

/-- Models `async getServiceById()` (contract.js:241-250): the record the
method reports.  It reports the record only when `service && service.active`;
otherwise it reports "Service not found or inactive". -/
def getServiceById (st : Store) (serviceId : String) : Option ServiceRecord :=
  match kvGet st (svcKey serviceId) with
  | some (.svc s) => if s.active then some s else none
  | _ => none

/-- One registry write transaction, with its caller address. -/
inductive CtrAction where
  | register (caller : String) (v : RegisterValue)
  | update (caller : String) (v : UpdateValue)
  | remove (caller : String) (serviceId : String)

/-- Apply one transaction: an `Error` return leaves the store as it was
(the JS methods return the error before any `put`). -/
def applyAction (st : Store) (a : CtrAction) : Store :=
  let out :=
    match a with
    | .register caller v => registerService st caller v
    | .update caller v => updateService st caller v
    | .remove caller serviceId => removeService st caller serviceId
  match out with
  | .ok st' => st'
  | .err _ => st

/-- Apply a sequence of transactions in order. -/
def applyActions (st : Store) : List CtrAction → Store
  | [] => st
  | a :: rest => applyActions (applyAction st a) rest

/-! ## JavaScript values -/

mutual

/-- A JavaScript value, as carried in sidechannel payloads and JSON-RPC
envelopes.  Arrays and objects are given their own list-shaped
inductives so that every function below is structurally recursive (and
hence computable by the kernel).  Numbers are embedded as `Int`: the
repository's payloads only exercise integral values, and JS number
formatting quirks are outside every claim. -/
inductive JSVal where
  | undefined
  | null
  | bool (b : Bool)
  | num (n : Int)
  | str (s : String)
  | arr (xs : JSArr)
  | obj (fs : JSObj)

inductive JSArr where
  | nil
  | cons (hd : JSVal) (tl : JSArr)

inductive JSObj where
  | nil
  | cons (k : String) (v : JSVal) (tl : JSObj)

end

/-- Property lookup on an object: the first binding for the key, JS
`undefined` when absent. -/
def objLookup : JSObj → String → JSVal
  | .nil, _ => .undefined
  | .cons k v tl, key => if k = key then v else objLookup tl key

/-- JS member access `json.k` as used by the code on an arbitrary
parsed value: objects yield the property (or `undefined`); primitives
are boxed and yield `undefined`; arrays have no such own property. -/
def jsField : JSVal → String → JSVal
  | .obj fs, key => objLookup fs key
  | _, _ => .undefined

/-- JS truthiness of a value (`x || y` picks `y` exactly when `x` is
falsy). -/
def jsTruthy : JSVal → Bool
  | .undefined => false
  | .null => false
  | .bool b => b
  | .num n => n != 0
  | .str s => s != ""
  | .arr _ => true
  | .obj _ => true

/-! ## Tool dispatcher (src/features/rpc-handler/index.js) -/

/-- A parsed JSON-RPC request, as returned by `_parseJsonRpc`
(index.js:174-179). -/
structure RpcRequest where
  jsonrpc : String
  method : String
  params : JSVal
  id : JSVal

/-- Outcome of `_parseJsonRpc`: a request, `null` ("not a request"),
or a thrown `TypeError` (property access on the JS value `null`)
propagating out of the function. -/
inductive ParseOut where
  | notReq
  | req (r : RpcRequest)
  | thrown

/-- The validation half of `_parseJsonRpc` (index.js:170-179), applied
to the parsed value `json`.  In JS, `json.jsonrpc` throws a `TypeError`
when `json` is `null` (the `try` block only covers `JSON.parse`); every
other non-object value boxes and yields `undefined` properties. -/
def checkJsonRpc (json : JSVal) : ParseOut :=
  match json with
  | .null => .thrown
  | .undefined => .thrown
  | _ =>
    match jsField json "jsonrpc" with
    | .str v =>
      if v = "2.0" then
        match jsField json "method" with
        | .str m =>
          match jsField json "id" with
          | .undefined => .notReq
          | idv =>
            .req { jsonrpc := v, method := m
                   params := if jsTruthy (jsField json "params")
                             then jsField json "params" else .arr .nil
                   id := idv }
        | _ => .notReq
      else .notReq
    | _ => .notReq

/-- Models `_parseJsonRpc(payload)` (index.js:155-180).  `decode` stands for
the platform `JSON.parse`: `none` when it throws (caught, yielding
"not a request").  A string payload is decoded first; a non-null
object (or array) is taken as-is; anything else is not a request. -/
def parseJsonRpc (decode : String → Option JSVal) (payload : JSVal) : ParseOut :=
  match payload with
  | .str s =>
    match decode s with
    | none => .notReq
    | some json => checkJsonRpc json
  | .obj _ => checkJsonRpc payload
  | .arr _ => checkJsonRpc payload
  | _ => .notReq

/-- Tool metadata normalized by `registerTool` (index.js:33-38). -/
structure ToolMeta where
  description : String
  priceInTNK : String
  category : String
  serviceId : String

/-- Outcome of invoking a tool handler: a returned value, or a thrown
error whose `message` member may be absent/falsy. -/
inductive ExecOut where
  | ok (v : JSVal)
  | fail (msg : Option String)

/-- An entry of the in-memory tool table `this.tools`. -/
structure Tool where
  handler : JSVal → ExecOut
  metadata : ToolMeta

/-- The dispatcher state relevant to `handleMessage`:
`tools` (a `Map` in insertion order) and the `enabledChannels`
allow-list (`none` is JS `null`, "all channels"). -/
structure RpcHandlerState where
  tools : List (String × Tool)
  enabledChannels : Option (List String)

/-- Models `this.tools.get(name)`. -/
def findTool : List (String × Tool) → String → Option Tool
  | [], _ => none
  | (k, t) :: tl, name => if k = name then some t else findTool tl name

/-- The channel gate of `handleMessage` (index.js:91-93): with an
allow-list configured the channel must be listed (in JS even an empty
array is truthy, so `some []` blocks every channel). -/
def channelOk (st : RpcHandlerState) (channel : String) : Bool :=
  match st.enabledChannels with
  | none => true
  | some l => l.contains channel

/-- Models `err.message || 'Internal error'` (index.js:139). -/
def msgOrInternal : Option String → String
  | some m => if m = "" then "Internal error" else m
  | none => "Internal error"

/-- A JSON-RPC response envelope as built by `handleMessage`: either
`{jsonrpc, result, id}` (the `result` member is always present, even
when the handler returned `undefined`) or `{jsonrpc, error: {code,
message}, id}`. -/
inductive Envelope where
  | success (jsonrpc : String) (result : JSVal) (id : JSVal)
  | failure (jsonrpc : String) (code : Int) (message : String) (id : JSVal)

/-- The request id echoed by an envelope. -/
def Envelope.reqId : Envelope → JSVal
  | .success _ _ id => id
  | .failure _ _ _ id => id

/-- Outcome of `handleMessage`: `null` (not mine / not a request), a
response envelope, or a propagated exception. -/
inductive HandleOut where
  | nothing
  | resp (e : Envelope)
  | thrown

/-- Models `async handleMessage(channel, payload, connection)`
(index.js:89-150). -/
def handleMessage (st : RpcHandlerState) (decode : String → Option JSVal)
    (channel : String) (payload : JSVal) : HandleOut :=
  if !channelOk st channel then .nothing
  else
    match parseJsonRpc decode payload with
    | .thrown => .thrown
    | .notReq => .nothing
    | .req r =>
      match findTool st.tools r.method with
      | none =>
        .resp (.failure "2.0" (-32601) ("Method not found: " ++ r.method) r.id)
      | some tool =>
        match tool.handler (if jsTruthy r.params then r.params else .arr .nil) with
        | .ok result => .resp (.success "2.0" result r.id)
        | .fail msg => .resp (.failure "2.0" (-32000) (msgOrInternal msg) r.id)

/-! ## Concrete dispatcher fixtures used by witnesses -/

/-- A stand-in for the platform `JSON.parse` on the inputs the witnesses
use: the string "null" decodes to the JSON value `null`, everything
else fails to decode. -/
def decode0 : String → Option JSVal := fun s => if s = "null" then some .null else none

/-- A tool whose handler returns its parameters (the `echo` example tool). -/
def echoTool : Tool :=
  { handler := fun p => .ok p
    metadata := { description := "Echo back the input parameters", priceInTNK := "0"
                  category := "utilities", serviceId := "echo" } }

/-- A tool whose handler always throws with message "boom". -/
def boomTool : Tool :=
  { handler := fun _ => .fail (some "boom")
    metadata := { description := "always fails", priceInTNK := "0"
                  category := "utilities", serviceId := "boom" } }

/-- Dispatcher fixture: `echo` and `boom` registered, all channels enabled. -/
def wRpc : RpcHandlerState :=
  { tools := [("echo", echoTool), ("boom", boomTool)], enabledChannels := none }

/-- A conforming request payload for the unregistered method "nope" with id 7. -/
def wNopePayload : JSVal :=
  .obj (.cons "jsonrpc" (.str "2.0") (.cons "method" (.str "nope")
    (.cons "params" (.arr .nil) (.cons "id" (.num 7) .nil))))

/-- The request `wNopePayload` parses to. -/
def wNopeReq : RpcRequest :=
  { jsonrpc := "2.0", method := "nope", params := .arr .nil, id := .num 7 }

/-- A conforming request payload for "echo" with params [5] and id 1. -/
def wEchoPayload : JSVal :=
  .obj (.cons "jsonrpc" (.str "2.0") (.cons "method" (.str "echo")
    (.cons "params" (.arr (.cons (.num 5) .nil)) (.cons "id" (.num 1) .nil))))

/-- The request `wEchoPayload` parses to. -/
def wEchoReq : RpcRequest :=
  { jsonrpc := "2.0", method := "echo", params := .arr (.cons (.num 5) .nil), id := .num 1 }

/-- A conforming request payload for "boom" with id 2. -/
def wBoomPayload : JSVal :=
  .obj (.cons "jsonrpc" (.str "2.0") (.cons "method" (.str "boom")
    (.cons "params" (.arr .nil) (.cons "id" (.num 2) .nil))))

/-- The request `wBoomPayload` parses to. -/
def wBoomReq : RpcRequest :=
  { jsonrpc := "2.0", method := "boom", params := .arr .nil, id := .num 2 }

/-- An otherwise-conforming payload whose id member is `null`. -/
def wNullIdObj : JSObj :=
  .cons "jsonrpc" (.str "2.0") (.cons "method" (.str "nope") (.cons "id" .null .nil))

/-- An otherwise-conforming payload with no id member (a notification). -/
def wNoIdObj : JSObj :=
  .cons "jsonrpc" (.str "2.0") (.cons "method" (.str "nope") .nil)

/-! ## Canonical codec (`stableStringify`, protocol file lines 7-15) -/

/-- Lowercase hexadecimal digit, as produced by `JSON.stringify` for
control-character escapes. -/
def hexDigit (n : Nat) : Char :=
  if n < 10 then Char.ofNat (48 + n) else Char.ofNat (87 + n)

/-- The `JSON.stringify` escaping of one character of a string. -/
def escapeChar (c : Char) : String :=
  if c = '"' then "\\\"" else
  if c = '\\' then "\\\\" else
  if c = '\x08' then "\\b" else
  if c = '\x0c' then "\\f" else
  if c = '\n' then "\\n" else
  if c = '\r' then "\\r" else
  if c = '\t' then "\\t" else
  if c.toNat < 32 then
    "\\u00" ++ String.singleton (hexDigit (c.toNat / 16)) ++
      String.singleton (hexDigit (c.toNat % 16))
  else String.singleton c

/-- Models `JSON.stringify` of a string: quoted, with standard JSON escaping. -/
def jsonQuote (s : String) : String :=
  "\"" ++ String.join (s.data.map escapeChar) ++ "\""

/-- Models `JSON.stringify` of a boolean. -/
def jsonBool (b : Bool) : String := if b then "true" else "false"

/-- Models `JSON.stringify` of an (integral) number. -/
def jsonNum (n : Int) : String := toString n

/-- Lexicographic comparison of character lists (the order
`Array.prototype.sort()` applies to string keys; JS compares UTF-16
code units, which agrees with code points on every key outside the
supplementary planes). -/
def strLtB : List Char → List Char → Bool
  | [], [] => false
  | [], _ :: _ => true
  | _ :: _, [] => false
  | a :: as, b :: bs => if a < b then true else if b < a then false else strLtB as bs

theorem strLtB_irrefl : ∀ l : List Char, strLtB l l = false
  | [] => rfl
  | a :: as => by simp [strLtB, strLtB_irrefl as]

theorem strLtB_asymm : ∀ l m : List Char, strLtB l m = true → strLtB m l = false
  | [], [], h => by simp [strLtB] at h
  | [], _ :: _, _ => rfl
  | _ :: _, [], h => by simp [strLtB] at h
  | a :: as, b :: bs, h => by
    by_cases hab : a < b
    · simp [strLtB, asymm hab, hab]
    · by_cases hba : b < a
      · simp [strLtB, hab, hba] at h
      · simp [strLtB, hab, hba] at h ⊢
        exact strLtB_asymm as bs h

theorem strLtB_trans : ∀ l m n : List Char,
    strLtB l m = true → strLtB m n = true → strLtB l n = true
  | [], _, _ :: _, _, _ => rfl
  | [], _ :: _, [], _, h2 => by simp [strLtB] at h2
  | [], [], [], h1, _ => by simp [strLtB] at h1
  | _ :: _, [], _, h1, _ => by simp [strLtB] at h1
  | _ :: _, _ :: _, [], _, h2 => by simp [strLtB] at h2
  | a :: as, b :: bs, c :: cs, h1, h2 => by
    rcases lt_trichotomy a b with hab | hab | hab <;>
      rcases lt_trichotomy b c with hbc | hbc | hbc
    · simp [strLtB, hab.trans hbc]
    · subst hbc
      simp [strLtB, hab]
    · simp [strLtB, hbc, asymm hbc] at h2
    · subst hab
      simp [strLtB, hbc]
    · subst hab
      subst hbc
      simp [strLtB, lt_irrefl a] at h1 h2 ⊢
      exact strLtB_trans as bs cs h1 h2
    · simp [strLtB, hbc, asymm hbc] at h2
    · simp [strLtB, hab, asymm hab] at h1
    · simp [strLtB, hab, asymm hab] at h1
    · simp [strLtB, hab, asymm hab] at h1

theorem strLtB_connex : ∀ l m : List Char,
    strLtB l m = false → strLtB m l = false → l = m
  | [], [], _, _ => rfl
  | [], _ :: _, h1, _ => by simp [strLtB] at h1
  | _ :: _, [], _, h2 => by simp [strLtB] at h2
  | a :: as, b :: bs, h1, h2 => by
    rcases lt_trichotomy a b with hab | hab | hab
    · simp [strLtB, hab] at h1
    · subst hab
      simp [strLtB, lt_irrefl a] at h1 h2
      rw [strLtB_connex as bs h1 h2]
    · simp [strLtB, hab, asymm hab] at h2

/-- Key comparison used for `Object.keys(value).sort()`. -/
def keyLtB (s t : String) : Bool := strLtB s.data t.data

/-- Non-strict key comparison. -/
def keyLeB (s t : String) : Bool := keyLtB s t || s == t

/-- The order in which `stableStringify` emits an object's rendered
`(key, encoded value)` pairs: by key, ties (impossible for genuine JS
objects, whose keys are unique) broken by the rendered value so that
the order is antisymmetric. -/
def pairLe (p q : String × String) : Prop :=
  keyLtB p.1 q.1 = true ∨ (p.1 = q.1 ∧ keyLeB p.2 q.2 = true)

instance : DecidableRel pairLe := fun p q =>
  inferInstanceAs (Decidable (_ ∨ (_ ∧ _)))

theorem keyLeB_trans {s t u : String} (h1 : keyLeB s t = true) (h2 : keyLeB t u = true) :
    keyLeB s u = true := by
  unfold keyLeB keyLtB at h1 h2 ⊢
  rcases Bool.or_eq_true_iff.mp h1 with h1 | h1 <;>
    rcases Bool.or_eq_true_iff.mp h2 with h2 | h2
  · exact Bool.or_eq_true_iff.mpr (Or.inl (strLtB_trans _ _ _ h1 h2))
  · have ht : t = u := eq_of_beq h2
    subst ht
    exact Bool.or_eq_true_iff.mpr (Or.inl h1)
  · rw [eq_of_beq h1]
    exact Bool.or_eq_true_iff.mpr (Or.inl h2)
  · rw [eq_of_beq h1]
    exact Bool.or_eq_true_iff.mpr (Or.inr h2)

theorem keyLeB_antisymm {s t : String} (h1 : keyLeB s t = true) (h2 : keyLeB t s = true) :
    s = t := by
  unfold keyLeB keyLtB at h1 h2
  rcases Bool.or_eq_true_iff.mp h1 with h1 | h1
  · rcases Bool.or_eq_true_iff.mp h2 with h2 | h2
    · exact absurd h2 (by rw [strLtB_asymm _ _ h1]; exact Bool.false_ne_true)
    · exact (eq_of_beq h2).symm
  · exact eq_of_beq h1

theorem keyLeB_total (s t : String) : keyLeB s t = true ∨ keyLeB t s = true := by
  unfold keyLeB keyLtB
  rcases h1 : strLtB s.data t.data with _ | _
  · rcases h2 : strLtB t.data s.data with _ | _
    · have := strLtB_connex s.data t.data h1 h2
      left
      simp [String.ext this]
    · right
      simp
  · left
    simp

instance : IsTrans (String × String) pairLe where
  trans p q r hpq hqr := by
    rcases hpq with h1 | ⟨h1, h1'⟩ <;> rcases hqr with h2 | ⟨h2, h2'⟩
    · exact Or.inl (strLtB_trans _ _ _ h1 h2)
    · exact Or.inl (h2 ▸ h1)
    · exact Or.inl (h1 ▸ h2)
    · exact Or.inr ⟨h1.trans h2, keyLeB_trans h1' h2'⟩

instance : IsTotal (String × String) pairLe where
  total p q := by
    rcases h1 : strLtB p.1.data q.1.data with _ | _
    · rcases h2 : strLtB q.1.data p.1.data with _ | _
      · have hk : p.1 = q.1 := String.ext (strLtB_connex _ _ h1 h2)
        rcases keyLeB_total p.2 q.2 with h | h
        · exact Or.inl (Or.inr ⟨hk, h⟩)
        · exact Or.inr (Or.inr ⟨hk.symm, h⟩)
      · exact Or.inr (Or.inl h2)
    · exact Or.inl (Or.inl h1)

instance : IsAntisymm (String × String) pairLe where
  antisymm p q hpq hqp := by
    rcases hpq with h1 | ⟨h1, h1'⟩ <;> rcases hqp with h2 | ⟨h2, h2'⟩
    · unfold keyLtB at h1 h2
      rw [strLtB_asymm _ _ h1] at h2
      exact absurd h2 Bool.false_ne_true
    · unfold keyLtB at h1
      rw [h2, strLtB_irrefl] at h1
      exact absurd h1 Bool.false_ne_true
    · unfold keyLtB at h2
      rw [h1, strLtB_irrefl] at h2
      exact absurd h2 Bool.false_ne_true
    · exact Prod.ext h1 (keyLeB_antisymm h1' h2')

/-- One emitted `"key":value` fragment. -/
def renderKV (p : String × String) : String := jsonQuote p.1 ++ ":" ++ p.2

mutual

/-- Models `stableStringify` (protocol file lines 7-15): `null`/`undefined`
encode as the literal `null`; non-object scalars via `JSON.stringify`;
arrays element-wise in order; objects with keys sorted ascending.  The
source sorts `Object.keys(value)` and then renders each `value[key]`;
here the pairs are rendered first and then sorted with `pairLe`, which
emits the same sequence whenever the keys are unique — as the keys of a
JS object always are. -/
def stableStringify : JSVal → String
  | .null => "null"
  | .undefined => "null"
  | .bool b => jsonBool b
  | .num n => jsonNum n
  | .str s => jsonQuote s
  | .arr xs => "[" ++ String.intercalate "," (renderArr xs) ++ "]"
  | .obj fs => "\x7b" ++ String.intercalate ","
      ((List.insertionSort pairLe (renderPairs fs)).map renderKV) ++ "\x7d"
termination_by structural v => v

/-- Models `value.map(stableStringify)` over an array. -/
def renderArr : JSArr → List String
  | .nil => []
  | .cons a tl => stableStringify a :: renderArr tl
termination_by structural xs => xs

/-- The `(key, stableStringify(value[key]))` pairs of an object, in
insertion order. -/
def renderPairs : JSObj → List (String × String)
  | .nil => []
  | .cons k v tl => (k, stableStringify v) :: renderPairs tl
termination_by structural fs => fs

end

/-- Object lookup distinguishing an absent key (`none`) from a present
binding. -/
def objFind : JSObj → String → Option JSVal
  | .nil, _ => none
  | .cons k v tl, key => if k = key then some v else objFind tl key

/-- Number of bindings of an object. -/
def objLen : JSObj → Nat
  | .nil => 0
  | .cons _ _ tl => objLen tl + 1

/-- Whether an object has a binding for a key. -/
def hasKey : JSObj → String → Bool
  | .nil, _ => false
  | .cons k _ tl, key => k = key || hasKey tl key

mutual

/-- Structural equality in the sense of C8: identical scalars, arrays
of the same length equal element-wise in order, and objects with the
same key-value sets regardless of key insertion order (same number of
bindings, and every binding of the first structurally matched in the
second). -/
def structEq : JSVal → JSVal → Bool
  | .undefined, .undefined => true
  | .null, .null => true
  | .bool a, .bool b => a == b
  | .num a, .num b => a == b
  | .str a, .str b => a == b
  | .arr xs, .arr ys => arrEq xs ys
  | .obj fs, .obj gs => objLen fs == objLen gs && objMatch fs gs
  | _, _ => false
termination_by structural a b => a

/-- Element-wise structural equality of arrays. -/
def arrEq : JSArr → JSArr → Bool
  | .nil, .nil => true
  | .cons a as, .cons b bs => structEq a b && arrEq as bs
  | _, _ => false
termination_by structural as bs => as

/-- Every binding of the first object is structurally matched by a
binding of the second. -/
def objMatch : JSObj → JSObj → Bool
  | .nil, _ => true
  | .cons k v tl, gs =>
    (match objFind gs k with
     | some w => structEq v w
     | none => false) && objMatch tl gs
termination_by structural fs gs => fs

end

mutual

/-- Well-formedness of an embedded JS value: every object has pairwise
distinct keys (as the keys of a genuine JS object always are). -/
def wfVal : JSVal → Bool
  | .arr xs => wfArr xs
  | .obj fs => wfObj fs
  | _ => true
termination_by structural v => v

/-- Well-formedness of every element of an array. -/
def wfArr : JSArr → Bool
  | .nil => true
  | .cons a tl => wfVal a && wfArr tl
termination_by structural xs => xs

/-- Distinct keys, and well-formed values, in an object. -/
def wfObj : JSObj → Bool
  | .nil => true
  | .cons k v tl => !hasKey tl k && wfVal v && wfObj tl
termination_by structural fs => fs

end

/-- The object value of `{"b":2,"a":1}`, bindings in insertion order. -/
def exObjBA : JSVal := .obj (.cons "b" (.num 2) (.cons "a" (.num 1) .nil))

/-- The object value of `{"a":1,"b":2}`, bindings in insertion order. -/
def exObjAB : JSVal := .obj (.cons "a" (.num 1) (.cons "b" (.num 2) .nil))

/-! ## Capability protocol: invite issuance (`/sc_invite`) -/

/-- Whitespace for the purposes of `String.prototype.trim` (the ASCII
portion; the repository only trims hex key material and TTL digits). -/
def jsWhite (c : Char) : Bool :=
  c = ' ' || c = '\t' || c = '\n' || c = '\r' || c = '\x0b' || c = '\x0c'

/-- Models `s.trim()`: strip leading and trailing whitespace. -/
def jsTrim (s : String) : String :=
  String.mk (((s.data.dropWhile jsWhite).reverse.dropWhile jsWhite).reverse)

/-- Models `s.toLowerCase()` (ASCII case mapping; key material is hex). -/
def jsLower (s : String) : String := String.mk (s.data.map Char.toLower)

/-- Models `String(x ?? '').trim().toLowerCase()` applied to key material. -/
def normHex (s : String) : String := jsLower (jsTrim s)

/-- The `InvitePayload` record as assembled by `normalizeInvitePayload`
(protocol file lines 17-28). -/
structure InvitePayload where
  channel : String
  inviteePubKey : String
  inviterPubKey : String
  inviterAddress : Option String
  issuedAt : Int
  expiresAt : Int
  nonce : String
  version : Int
deriving DecidableEq

/-- Models `normalizeInvitePayload` (lines 17-28) on the raw fields the
`/sc_invite` command assembles: strings pass through `String(...)`,
public keys are trimmed and lowercased, numbers through `Number(...)`,
and a non-finite `version` (`none`) defaults to 1. -/
def normalizeInvitePayload (channel inviteePubKey inviterPubKey : String)
    (inviterAddress : Option String) (issuedAt expiresAt : Int) (nonce : String)
    (version : Option Int) : InvitePayload :=
  { channel := channel
    inviteePubKey := normHex inviteePubKey
    inviterPubKey := normHex inviterPubKey
    inviterAddress := inviterAddress
    issuedAt := issuedAt
    expiresAt := expiresAt
    nonce := nonce
    version := version.getD 1 }

/-- TTL resolution of `/sc_invite` (lines 610-619).  `ttlArg` is
`some parsed` when `--ttl` was passed, with `parsed = none` when
`Number.parseInt` produced a non-finite value (then `ttlMs` is JS
`null`); a given TTL is clamped at 0 seconds and scaled to
milliseconds.  Without `--ttl`, a configured finite positive
`inviteTtlMs` is used as is; otherwise `ttlMs` is 0. -/
def computeTtlMs (ttlArg : Option (Option Int)) (inviteTtlMs : Option Int) : Option Int :=
  match ttlArg with
  | some parsed =>
    match parsed with
    | some ttlSec => some (max ttlSec 0 * 1000)
    | none => none
  | none =>
    match inviteTtlMs with
    | some t => if 0 < t then some t else some 0
    | none => some 0

/-- A signed invite `{ payload, sig }` (line 670; the optional embedded
welcome is advisory and not modelled). -/
structure Invite where
  payload : InvitePayload
  sig : String
deriving DecidableEq

/-- The data-producing core of the `/sc_invite` command (lines
575-680): `issuedAt` is `Date.now()`, `nonce` the random nonce, and
`sigHex` the hex signature the external wallet produced over the
canonical payload (the empty string when signing failed).  The command
emits an invite exactly when the resolved TTL is a positive number of
milliseconds (the guard at lines 620-623, which otherwise reports
"Invite TTL is required") and signing succeeded (line 673);
`expiresAt` is `issuedAt + ttlMs` (line 624). -/
def scInvite (channel invitee inviterPubKey : String) (inviterAddress : Option String)
    (issuedAt : Int) (nonce : String) (ttlArg : Option (Option Int))
    (inviteTtlMs : Option Int) (sigHex : String) : Option Invite :=
  match computeTtlMs ttlArg inviteTtlMs with
  | none => none
  | some ttlMs =>
    if ttlMs ≤ 0 then none
    else if sigHex = "" then none
    else some { payload := normalizeInvitePayload channel invitee inviterPubKey
                  inviterAddress issuedAt (issuedAt + ttlMs) nonce (some 1)
                sig := sigHex }

/-! ## Store and key lemmas -/

theorem kvGet_put_same (st : Store) (k : String) (v : StoreVal) :
    kvGet (kvPut st k v) k = some v := by
  simp [kvGet, kvPut]

theorem kvGet_put_ne (st : Store) (k k' : String) (v : StoreVal) (h : k ≠ k') :
    kvGet (kvPut st k v) k' = kvGet st k' := by
  simp [kvGet, kvPut, h]

theorem svcKey_inj {a b : String} (h : svcKey a = svcKey b) : a = b := by
  have h2 := congrArg String.data h
  rw [svcKey, svcKey, String.data_append, String.data_append] at h2
  exact String.ext (List.append_cancel_left h2)

theorem svcKey_ne_index (a : String) : svcKey a ≠ "services_index" := by
  intro h
  have h2 := congrArg String.data h
  rw [svcKey, String.data_append] at h2
  simp [show "services/".data = ['s','e','r','v','i','c','e','s','/'] from rfl,
        show "services_index".data = ['s','e','r','v','i','c','e','s','_','i','n','d','e','x'] from rfl] at h2

theorem svcKey_ne_prov (a b : String) : svcKey a ≠ provKey b := by
  intro h
  have h2 := congrArg String.data h
  rw [svcKey, provKey, String.data_append, String.data_append] at h2
  simp [show "services/".data = ['s','e','r','v','i','c','e','s','/'] from rfl,
        show "providers/".data = ['p','r','o','v','i','d','e','r','s','/'] from rfl] at h2

theorem provKey_ne_index (a : String) : provKey a ≠ "services_index" := by
  intro h
  have h2 := congrArg String.data h
  rw [provKey, String.data_append] at h2
  simp [show "providers/".data = ['p','r','o','v','i','d','e','r','s','/'] from rfl,
        show "services_index".data = ['s','e','r','v','i','c','e','s','_','i','n','d','e','x'] from rfl] at h2

/-! ## Concrete registry fixtures used by witnesses and counterexamples -/

/-- Fixture record as stored by `registerService` for provider "alice". -/
def wRec : ServiceRecord :=
  { serviceId := "s1", method := "m", description := "d", priceInTNK := "1"
    category := "general", providerAddress := "alice", timestamp := none, active := true }

/-- Fixture store holding `wRec` at `services/s1`. -/
def wStore : Store := [(svcKey "s1", .svc wRec)]

/-- Fixture `register_service` value colliding with `wRec`'s id. -/
def wReg : RegisterValue :=
  { serviceId := "s1", method := "m2", description := "d2", priceInTNK := "2", category := none }

/-- Fixture `update_service` value targeting `wRec`'s id, setting only the price. -/
def wUpd : UpdateValue :=
  { serviceId := "s1", description := none, priceInTNK := some "9", category := none }

/-- The store produced by registering `s1` for "alice" on an empty store. -/
def c1Store1 : Store := applyAction [] (.register "alice" ⟨"s1", "m", "d", "1", none⟩)

/-- The store produced by then removing `s1` as "alice". -/
def c1Store2 : Store := applyAction c1Store1 (.remove "alice" "s1")

/-! ## Registry claim theorems -/

/-- C2: if any record (any stored value, so active or inactive alike)
exists at `services/<serviceId>`, `registerService` fails with the
`AlreadyExists` error before performing any write, so the whole store —
in particular the pre-existing record, `services_index` and every
provider index — is left unchanged. -/
theorem registerService_alreadyExists (st : Store) (caller : String) (v : RegisterValue)
    (x : StoreVal) (h : kvGet st (svcKey v.serviceId) = some x) :
    registerService st caller v = .err .alreadyExists ∧
    applyAction st (.register caller v) = st := by
  constructor
  · unfold registerService
    rw [h]
  · simp only [applyAction, registerService, h]

/-- Witness for C2 at a concrete store: `s1` is registered, a second
registration of `s1` by "bob" fails with `AlreadyExists` and changes
nothing. -/
theorem registerService_alreadyExists_witness :
    kvGet wStore (svcKey "s1") = some (.svc wRec) ∧
    (registerService wStore "bob" wReg = .err .alreadyExists ∧
     applyAction wStore (.register "bob" wReg) = wStore) :=
  ⟨rfl, registerService_alreadyExists wStore "bob" wReg (.svc wRec) rfl⟩

/-- C3: `updateService` by a non-owner fails with `Unauthorized` and
leaves the store (hence the stored record) byte-identical; on an absent
id it fails with `NotFound`; for the owner it rewrites the record with
exactly the provided fields merged in, every unset field (and every
other field, including `active`) retaining its prior value. -/
theorem updateService_spec :
    (∀ (st : Store) (caller : String) (v : UpdateValue) (s : ServiceRecord),
      kvGet st (svcKey v.serviceId) = some (.svc s) →
      s.providerAddress ≠ caller →
      updateService st caller v = .err .notAuthorized ∧
      applyAction st (.update caller v) = st) ∧
    (∀ (st : Store) (caller : String) (v : UpdateValue),
      kvGet st (svcKey v.serviceId) = none →
      updateService st caller v = .err .notFound) ∧
    (∀ (st : Store) (caller : String) (v : UpdateValue) (s : ServiceRecord),
      kvGet st (svcKey v.serviceId) = some (.svc s) →
      s.providerAddress = caller →
      updateService st caller v =
        .ok (kvPut st (svcKey v.serviceId) (.svc
          { s with
            description := v.description.getD s.description
            priceInTNK := v.priceInTNK.getD s.priceInTNK
            category := v.category.getD s.category }))) := by
  refine ⟨?_, ?_, ?_⟩
  · intro st caller v s h hne
    constructor
    · unfold updateService
      rw [h]
      simp [hne]
    · simp only [applyAction, updateService, h]
      simp [hne]
  · intro st caller v h
    unfold updateService
    rw [h]
  · intro st caller v s h hown
    unfold updateService
    rw [h]
    simp [hown]

/-- Witness for C3: "bob" (not the owner) fails to update `s1` and the
store is unchanged; the owner "alice" updates only the price, the other
fields keeping their prior values. -/
theorem updateService_spec_witness :
    (kvGet wStore (svcKey "s1") = some (.svc wRec) ∧ wRec.providerAddress ≠ "bob") ∧
    (updateService wStore "bob" wUpd = .err .notAuthorized ∧
     applyAction wStore (.update "bob" wUpd) = wStore) ∧
    updateService wStore "alice" wUpd =
      .ok (kvPut wStore (svcKey "s1") (.svc { wRec with priceInTNK := "9" })) :=
  ⟨⟨rfl, by decide⟩,
   updateService_spec.1 wStore "bob" wUpd wRec rfl (by decide),
   updateService_spec.2.2 wStore "alice" wUpd wRec rfl rfl⟩

/-- When `getIdsIfArray` skips the write, the stored value is not an
array, so the `||`/`isArray` read collapses it to the empty list. -/
theorem getIdsOrEmpty_of_ifArray_none {st : Store} {k : String}
    (h : getIdsIfArray st k = none) : getIdsOrEmpty st k = [] := by
  unfold getIdsIfArray at h
  unfold getIdsOrEmpty
  rcases hk : kvGet st k with _ | v
  · rfl
  · rw [hk] at h
    cases v with
    | svc s => rfl
    | ids l => simp at h
    | num n => rfl

/-- Shape of a successful `removeService`: the record is soft-deleted
(rewritten with `active := false`) and the two index writes happen when
the stored index values are arrays. -/
theorem removeService_ok_eq (st : Store) (caller serviceId : String) (s : ServiceRecord)
    (h : kvGet st (svcKey serviceId) = some (.svc s))
    (hown : s.providerAddress = caller) :
    removeService st caller serviceId = .ok (
      let st1 := kvPut st (svcKey serviceId) (.svc { s with active := false })
      let st2 :=
        match getIdsIfArray st1 "services_index" with
        | some index => kvPut st1 "services_index" (.ids (index.filter (· ≠ serviceId)))
        | none => st1
      match getIdsIfArray st2 (provKey s.providerAddress) with
      | some providerServices =>
          kvPut st2 (provKey s.providerAddress) (.ids (providerServices.filter (· ≠ serviceId)))
      | none => st2) := by
  unfold removeService
  rw [h]
  simp [hown]

/-- C1 (amended): after a successful owner `removeService`, the removed
id is gone from `services_index` (so `listServices`, which iterates that
index, no longer includes any record for it — stated under the invariant
that stored records carry their own key as `serviceId`); the record is
retained in the store with `active := false`; but `getServiceById`
applies the same active-only filter as `listServices` and reports the
removed id as "not found or inactive" — it does NOT return the record. -/
theorem removeService_soft_delete (st : Store) (caller serviceId : String)
    (s : ServiceRecord) (st' : Store)
    (h : kvGet st (svcKey serviceId) = some (.svc s))
    (hown : s.providerAddress = caller)
    (hrm : removeService st caller serviceId = .ok st') :
    serviceId ∉ getIdsOrEmpty st' "services_index" ∧
    ((∀ id r, kvGet st (svcKey id) = some (.svc r) → r.serviceId = id) →
      ∀ r ∈ listServices st', r.serviceId ≠ serviceId) ∧
    getServiceById st' serviceId = none ∧
    kvGet st' (svcKey serviceId) = some (.svc { s with active := false }) := by
  rw [removeService_ok_eq st caller serviceId s h hown] at hrm
  injection hrm with hst'
  set st1 : Store := kvPut st (svcKey serviceId) (.svc { s with active := false }) with hst1
  -- the record lookup is unaffected by the later index writes
  have hget1 : ∀ id : String, kvGet st1 (svcKey id) =
      if id = serviceId then some (.svc { s with active := false }) else kvGet st (svcKey id) := by
    intro id
    by_cases hid : id = serviceId
    · subst hid
      simp [hst1, kvGet_put_same]
    · rw [if_neg hid, hst1, kvGet_put_ne]
      intro hk
      exact hid (svcKey_inj hk).symm
  -- common facts about any store reached from st1 by writing only the two index keys
  have main : ∀ st2 : Store,
      (st2 = match getIdsIfArray st1 "services_index" with
        | some index => kvPut st1 "services_index" (.ids (index.filter (· ≠ serviceId)))
        | none => st1) →
      (st' = match getIdsIfArray st2 (provKey s.providerAddress) with
        | some l => kvPut st2 (provKey s.providerAddress) (.ids (l.filter (· ≠ serviceId)))
        | none => st2) →
      serviceId ∉ getIdsOrEmpty st' "services_index" ∧
      (∀ id : String, kvGet st' (svcKey id) = kvGet st1 (svcKey id)) ∧
      (getIdsOrEmpty st' "services_index" =
        getIdsOrEmpty st2 "services_index") := by
    intro st2 h2 h3
    have hsvc2 : ∀ id : String, kvGet st2 (svcKey id) = kvGet st1 (svcKey id) := by
      intro id
      rcases hix : getIdsIfArray st1 "services_index" with _ | index <;>
        rw [hix] at h2 <;> subst h2
      · rfl
      · exact kvGet_put_ne _ _ _ _ fun hk => svcKey_ne_index id hk.symm
    have hsvc3 : ∀ id : String, kvGet st' (svcKey id) = kvGet st2 (svcKey id) := by
      intro id
      rcases hpv : getIdsIfArray st2 (provKey s.providerAddress) with _ | l <;>
        rw [hpv] at h3 <;> subst h3
      · rfl
      · exact kvGet_put_ne _ _ _ _ fun hk => svcKey_ne_prov id s.providerAddress hk.symm
    have hidx3 : getIdsOrEmpty st' "services_index" = getIdsOrEmpty st2 "services_index" := by
      rcases hpv : getIdsIfArray st2 (provKey s.providerAddress) with _ | l <;>
        rw [hpv] at h3 <;> subst h3
      · rfl
      · unfold getIdsOrEmpty
        rw [kvGet_put_ne _ _ _ _ (provKey_ne_index s.providerAddress)]
    refine ⟨?_, fun id => (hsvc3 id).trans (hsvc2 id), hidx3⟩
    rw [hidx3]
    rcases hix : getIdsIfArray st1 "services_index" with _ | index <;>
      rw [hix] at h2 <;> subst h2
    · rw [getIdsOrEmpty_of_ifArray_none hix]
      exact List.not_mem_nil serviceId
    · unfold getIdsOrEmpty
      rw [kvGet_put_same]
      simp
  obtain ⟨hnotin, hsvc, _⟩ := main _ rfl hst'.symm
  refine ⟨hnotin, ?_, ?_, ?_⟩
  · intro hwf r hr
    unfold listServices at hr
    rw [List.mem_filterMap] at hr
    obtain ⟨id, hidmem, hfr⟩ := hr
    rw [hsvc id, hget1 id] at hfr
    by_cases hid : id = serviceId
    · subst hid
      rw [if_pos rfl] at hfr
      simp at hfr
    · rw [if_neg hid] at hfr
      rcases hk : kvGet st (svcKey id) with _ | v
      · rw [hk] at hfr
        simp at hfr
      · rw [hk] at hfr
        cases v with
        | svc t =>
          have hrt : r = t := by
            by_cases ha : t.active <;> simp [ha] at hfr
            · exact hfr.symm
          subst hrt
          rw [hwf id r hk]
          exact hid
        | ids l => simp at hfr
        | num n => simp at hfr
  · unfold getServiceById
    rw [hsvc serviceId, hget1 serviceId, if_pos rfl]
    simp
  · rw [hsvc serviceId, hget1 serviceId, if_pos rfl]

/-- C1 (counterexample to the claim as stated): register `s1` as
"alice" on the empty store, then remove it.  `listServices` indeed
excludes the removed id and the record is retained with
`active := false`, but `getServiceById` on the removed id returns
nothing — not the record with `active=false` that the claim promises
(contract.js:245 filters on `service && service.active`). -/
theorem getServiceById_after_remove_counterexample :
    removeService c1Store1 "alice" "s1" = .ok c1Store2 ∧
    listServices c1Store2 = [] ∧
    kvGet c1Store2 (svcKey "s1") =
      some (.svc { serviceId := "s1", method := "m", description := "d", priceInTNK := "1"
                   category := "general", providerAddress := "alice", timestamp := none
                   active := false }) ∧
    getServiceById c1Store2 "s1" = none := by
  refine ⟨?_, ?_, ?_, ?_⟩ <;> decide

/-- Witness for the amended C1, at the same concrete run. -/
theorem removeService_soft_delete_witness :
    (kvGet c1Store1 (svcKey "s1") =
      some (.svc { serviceId := "s1", method := "m", description := "d", priceInTNK := "1"
                   category := "general", providerAddress := "alice", timestamp := none
                   active := true }) ∧
     removeService c1Store1 "alice" "s1" = .ok c1Store2) ∧
    ("s1" ∉ getIdsOrEmpty c1Store2 "services_index" ∧
     ((∀ id r, kvGet c1Store1 (svcKey id) = some (.svc r) → r.serviceId = id) →
       ∀ r ∈ listServices c1Store2, r.serviceId ≠ "s1") ∧
     getServiceById c1Store2 "s1" = none ∧
     kvGet c1Store2 (svcKey "s1") =
       some (.svc { serviceId := "s1", method := "m", description := "d", priceInTNK := "1"
                    category := "general", providerAddress := "alice", timestamp := none
                    active := false })) :=
  ⟨⟨by decide, by decide⟩,
   removeService_soft_delete c1Store1 "alice" "s1"
     { serviceId := "s1", method := "m", description := "d", priceInTNK := "1"
       category := "general", providerAddress := "alice", timestamp := none, active := true }
     c1Store2 (by decide) rfl (by decide)⟩

/-- The two index writes of `removeService` never touch a
`services/<id>` key. -/
theorem kvGet_svcKey_indexWrites (st1 : Store) (serviceId pk id : String)
    (st2 st3 : Store)
    (h2 : st2 = match getIdsIfArray st1 "services_index" with
      | some index => kvPut st1 "services_index" (.ids (index.filter (· ≠ serviceId)))
      | none => st1)
    (h3 : st3 = match getIdsIfArray st2 (provKey pk) with
      | some l => kvPut st2 (provKey pk) (.ids (l.filter (· ≠ serviceId)))
      | none => st2) :
    kvGet st3 (svcKey id) = kvGet st1 (svcKey id) := by
  have hs2 : kvGet st2 (svcKey id) = kvGet st1 (svcKey id) := by
    rcases hix : getIdsIfArray st1 "services_index" with _ | index <;>
      rw [hix] at h2 <;> subst h2
    · rfl
    · exact kvGet_put_ne _ _ _ _ fun hk => svcKey_ne_index id hk.symm
  rw [← hs2]
  rcases hpv : getIdsIfArray st2 (provKey pk) with _ | l <;>
    rw [hpv] at h3 <;> subst h3
  · rfl
  · exact kvGet_put_ne _ _ _ _ fun hk => svcKey_ne_prov id pk hk.symm

/-- One registry transaction can never turn an inactive record active
again: whatever the transaction, the record at an inactive id survives
and stays inactive. -/
theorem inactive_preserved_step (st : Store) (a : CtrAction) (id : String) (s : ServiceRecord)
    (h : kvGet st (svcKey id) = some (.svc s)) (hs : s.active = false) :
    ∃ s', kvGet (applyAction st a) (svcKey id) = some (.svc s') ∧ s'.active = false := by
  cases a with
  | register caller v =>
    rcases hv : kvGet st (svcKey v.serviceId) with _ | x
    · have hne : svcKey v.serviceId ≠ svcKey id := by
        intro hk
        rw [hk, h] at hv
        cases hv
      refine ⟨s, ?_, hs⟩
      simp only [applyAction, registerService, hv]
      rw [kvGet_put_ne _ _ _ _ fun hk => svcKey_ne_prov id caller hk.symm,
          kvGet_put_ne _ _ _ _ fun hk => svcKey_ne_index id hk.symm,
          kvGet_put_ne _ _ _ _ hne]
      exact h
    · refine ⟨s, ?_, hs⟩
      simp only [applyAction, registerService, hv]
      exact h
  | update caller v =>
    rcases hv : kvGet st (svcKey v.serviceId) with _ | x
    · refine ⟨s, ?_, hs⟩
      simp only [applyAction, updateService, hv]
      exact h
    · cases x with
      | svc t =>
        by_cases hau : t.providerAddress = caller
        · by_cases hid : v.serviceId = id
          · subst hid
            have ht : t = s := by
              rw [h] at hv
              cases hv
              rfl
            subst ht
            refine ⟨{ t with
                description := v.description.getD t.description
                priceInTNK := v.priceInTNK.getD t.priceInTNK
                category := v.category.getD t.category }, ?_, hs⟩
            simp only [applyAction, updateService, hv, hau]
            simp only [ne_eq, not_true_eq_false, if_false, kvGet_put_same]
          · have hne : svcKey v.serviceId ≠ svcKey id := fun hk => hid (svcKey_inj hk)
            refine ⟨s, ?_, hs⟩
            simp only [applyAction, updateService, hv, hau]
            simp only [ne_eq, not_true_eq_false, if_false]
            rw [kvGet_put_ne _ _ _ _ hne]
            exact h
        · refine ⟨s, ?_, hs⟩
          simp only [applyAction, updateService, hv]
          simp [hau, h]
      | ids l =>
        refine ⟨s, ?_, hs⟩
        simp only [applyAction, updateService, hv]
        exact h
      | num n =>
        refine ⟨s, ?_, hs⟩
        simp only [applyAction, updateService, hv]
        exact h
  | remove caller serviceId =>
    rcases hv : kvGet st (svcKey serviceId) with _ | x
    · refine ⟨s, ?_, hs⟩
      simp only [applyAction, removeService, hv]
      exact h
    · cases x with
      | svc t =>
        by_cases hau : t.providerAddress = caller
        · have hre := removeService_ok_eq st caller serviceId t hv hau
          simp only [applyAction, hre]
          rw [kvGet_svcKey_indexWrites
            (kvPut st (svcKey serviceId) (.svc { t with active := false }))
            serviceId t.providerAddress id _ _ rfl rfl]
          by_cases hid : serviceId = id
          · subst hid
            exact ⟨{ t with active := false }, kvGet_put_same _ _ _, rfl⟩
          · refine ⟨s, ?_, hs⟩
            rw [kvGet_put_ne _ _ _ _ fun hk => hid (svcKey_inj hk)]
            exact h
        · refine ⟨s, ?_, hs⟩
          simp only [applyAction, removeService, hv]
          simp [hau, h]
      | ids l =>
        refine ⟨s, ?_, hs⟩
        simp only [applyAction, removeService, hv]
        exact h
      | num n =>
        refine ⟨s, ?_, hs⟩
        simp only [applyAction, removeService, hv]
        exact h

/-- C4: the per-id lifecycle `absent -> active -> inactive` is
invariant under every sequence of registry transactions.  First
conjunct: once a record is inactive, after any sequence of
`registerService` / `updateService` / `removeService` transactions the
record still exists and is still inactive (no resurrection, and no
physical deletion).  Second conjunct: `registerService` on an id whose
record exists — in particular a previously-removed, inactive one — is
rejected with `AlreadyExists`, so `inactive` is terminal. -/
theorem lifecycle_invariant :
    (∀ (st : Store) (acts : List CtrAction) (id : String) (s : ServiceRecord),
      kvGet st (svcKey id) = some (.svc s) → s.active = false →
      ∃ s', kvGet (applyActions st acts) (svcKey id) = some (.svc s') ∧
        s'.active = false) ∧
    (∀ (st : Store) (caller : String) (v : RegisterValue) (s : ServiceRecord),
      kvGet st (svcKey v.serviceId) = some (.svc s) → s.active = false →
      registerService st caller v = .err .alreadyExists) := by
  constructor
  · intro st acts
    induction acts generalizing st with
    | nil => exact fun id s h hs => ⟨s, h, hs⟩
    | cons a rest ih =>
      intro id s h hs
      obtain ⟨s', h', hs'⟩ := inactive_preserved_step st a id s h hs
      exact ih (applyAction st a) id s' h' hs'
  · intro st caller v s h _
    unfold registerService
    rw [h]

/-- Witness for C4: after the register-then-remove run, `s1` is
inactive; a further register (by "bob") and update (by "alice") leave
it present and inactive, and re-registering `s1` fails. -/
theorem lifecycle_invariant_witness :
    (kvGet c1Store2 (svcKey "s1") =
       some (.svc { serviceId := "s1", method := "m", description := "d", priceInTNK := "1"
                    category := "general", providerAddress := "alice", timestamp := none
                    active := false }) ∧
     (∃ s', kvGet (applyActions c1Store2
         [.register "bob" ⟨"s1", "m2", "d2", "2", none⟩,
          .update "alice" ⟨"s1", some "d3", none, none⟩]) (svcKey "s1") =
         some (.svc s') ∧ s'.active = false)) ∧
    registerService c1Store2 "bob" ⟨"s1", "m2", "d2", "2", none⟩ = .err .alreadyExists :=
  ⟨⟨by decide,
    lifecycle_invariant.1 c1Store2
      [.register "bob" ⟨"s1", "m2", "d2", "2", none⟩,
       .update "alice" ⟨"s1", some "d3", none, none⟩] "s1"
      { serviceId := "s1", method := "m", description := "d", priceInTNK := "1"
        category := "general", providerAddress := "alice", timestamp := none, active := false }
      (by decide) rfl⟩,
   lifecycle_invariant.2 c1Store2 "bob" ⟨"s1", "m2", "d2", "2", none⟩
     { serviceId := "s1", method := "m", description := "d", priceInTNK := "1"
       category := "general", providerAddress := "alice", timestamp := none, active := false }
     (by decide) rfl⟩

/-! ## Dispatcher claim theorems -/

/-- C5: a conforming request (the channel gate passes and the payload
parses to a request) whose method has no entry in the tool table gets
an error envelope with `jsonrpc` `"2.0"`, error code `-32601` and the
request's own `id`. -/
theorem handleMessage_unknown_method (st : RpcHandlerState)
    (decode : String → Option JSVal) (channel : String) (payload : JSVal)
    (r : RpcRequest)
    (hch : channelOk st channel = true)
    (hp : parseJsonRpc decode payload = .req r)
    (ht : findTool st.tools r.method = none) :
    handleMessage st decode channel payload =
      .resp (.failure "2.0" (-32601) ("Method not found: " ++ r.method) r.id) := by
  simp [handleMessage, hch, hp, ht]

/-- C6: a conforming request whose method is registered: if the handler
throws, the response is an error envelope with code `-32000` carrying
the failure's message (`'Internal error'` when the thrown value has no
truthy `message`); if the handler returns, the response is a result
envelope carrying the returned value verbatim — including `undefined`,
which still yields a `result` member by construction of the envelope.
Both envelopes echo the request's `id`. -/
theorem handleMessage_dispatch (st : RpcHandlerState)
    (decode : String → Option JSVal) (channel : String) (payload : JSVal)
    (r : RpcRequest) (tool : Tool)
    (hch : channelOk st channel = true)
    (hp : parseJsonRpc decode payload = .req r)
    (ht : findTool st.tools r.method = some tool) :
    (∀ msg, tool.handler (if jsTruthy r.params then r.params else .arr .nil) = .fail msg →
      handleMessage st decode channel payload =
        .resp (.failure "2.0" (-32000) (msgOrInternal msg) r.id)) ∧
    (∀ v, tool.handler (if jsTruthy r.params then r.params else .arr .nil) = .ok v →
      handleMessage st decode channel payload = .resp (.success "2.0" v r.id)) := by
  constructor
  · intro msg hh
    simp [handleMessage, hch, hp, ht, hh]
  · intro v hh
    simp [handleMessage, hch, hp, ht, hh]

/-- C7 (evaluating the code at the failing input): a string payload
decoding to the JSON value `null` — e.g. the five-byte string "null" —
makes `_parseJsonRpc` throw a `TypeError` (`json.jsonrpc` on `null`,
outside the `try` that only covers `JSON.parse`) instead of returning
the claimed "not a request" result. -/
theorem parseJsonRpc_null_string_throws (decode : String → Option JSVal)
    (h : decode "null" = some .null) :
    parseJsonRpc decode (.str "null") = .thrown ∧
    parseJsonRpc decode (.str "null") ≠ .notReq := by
  have hred : parseJsonRpc decode (.str "null") = checkJsonRpc .null := by
    show (match decode "null" with
          | none => ParseOut.notReq
          | some json => checkJsonRpc json) = checkJsonRpc .null
    rw [h]
  rw [hred]
  exact ⟨rfl, fun hc => ParseOut.noConfusion hc⟩

/-- Any payload that parses to a request on an enabled channel is
answered with some envelope, and that envelope echoes the request id
(whichever of the three response branches is taken). -/
theorem handleMessage_answers (st : RpcHandlerState) (decode : String → Option JSVal)
    (channel : String) (payload : JSVal) (r : RpcRequest)
    (hch : channelOk st channel = true)
    (hp : parseJsonRpc decode payload = .req r) :
    ∃ env : Envelope,
      handleMessage st decode channel payload = .resp env ∧ env.reqId = r.id := by
  unfold handleMessage
  rw [hch, hp]
  rcases ht : findTool st.tools r.method with _ | tool
  · simp only [ht]
    exact ⟨_, rfl, rfl⟩
  · simp only [ht]
    rcases hh : tool.handler (if jsTruthy r.params then r.params else .arr .nil)
        with v | msg
    · simp only [hh]
      exact ⟨_, rfl, rfl⟩
    · simp only [hh]
      exact ⟨_, rfl, rfl⟩

/-- C10: among payloads that conform apart from the `id` member (an
object with `jsonrpc: "2.0"` and a string `method`, on an enabled
channel), `handleMessage` answers with an envelope echoing the payload's
`id` whenever `id` is any value other than `undefined` — including
`null`, `0` and `false` — and yields `null` (ignores the payload as a
notification) exactly when `id` is absent/`undefined`. -/
theorem handleMessage_id_discriminates (st : RpcHandlerState)
    (decode : String → Option JSVal) (channel : String) (fs : JSObj) (m : String)
    (hch : channelOk st channel = true)
    (hj : objLookup fs "jsonrpc" = .str "2.0")
    (hm : objLookup fs "method" = .str m) :
    (objLookup fs "id" = .undefined →
      handleMessage st decode channel (.obj fs) = .nothing) ∧
    (∀ idv : JSVal, objLookup fs "id" = idv → idv ≠ .undefined →
      ∃ env : Envelope,
        handleMessage st decode channel (.obj fs) = .resp env ∧ env.reqId = idv) := by
  have hparse : ∀ idv : JSVal, objLookup fs "id" = idv → idv ≠ .undefined →
      parseJsonRpc decode (.obj fs) =
        .req { jsonrpc := "2.0", method := m
               params := if jsTruthy (objLookup fs "params")
                         then objLookup fs "params" else .arr .nil
               id := idv } := by
    intro idv hid hne
    unfold parseJsonRpc checkJsonRpc
    simp only [jsField, hj, hm, hid, if_pos rfl]
    cases idv with
    | undefined => exact absurd rfl hne
    | null => rfl
    | bool b => rfl
    | num n => rfl
    | str s => rfl
    | arr xs => rfl
    | obj gs => rfl
  constructor
  · intro hid
    unfold handleMessage parseJsonRpc checkJsonRpc
    rw [hch]
    simp only [jsField, hj, hm, hid, if_pos rfl]
    rfl
  · intro idv hid hne
    exact handleMessage_answers st decode channel (.obj fs) _ hch (hparse idv hid hne)

/-- Witness for C5 at a concrete state: method "nope" is not in the
tool table, and the response is the `-32601` envelope echoing id 7. -/
theorem handleMessage_unknown_method_witness :
    (channelOk wRpc "ch" = true ∧
     parseJsonRpc decode0 wNopePayload = .req wNopeReq ∧
     findTool wRpc.tools wNopeReq.method = none) ∧
    handleMessage wRpc decode0 "ch" wNopePayload =
      .resp (.failure "2.0" (-32601) ("Method not found: " ++ wNopeReq.method) wNopeReq.id) :=
  ⟨⟨rfl, rfl, rfl⟩,
   handleMessage_unknown_method wRpc decode0 "ch" wNopePayload wNopeReq rfl rfl rfl⟩

/-- Witness for C6 at concrete states: the echo handler's return value
is carried verbatim with id 1, and the failing handler produces the
`-32000` envelope carrying "boom" with id 2. -/
theorem handleMessage_dispatch_witness :
    (channelOk wRpc "ch" = true ∧
     parseJsonRpc decode0 wEchoPayload = .req wEchoReq ∧
     findTool wRpc.tools wEchoReq.method = some echoTool ∧
     echoTool.handler (if jsTruthy wEchoReq.params then wEchoReq.params else .arr .nil) =
       .ok (.arr (.cons (.num 5) .nil))) ∧
    handleMessage wRpc decode0 "ch" wEchoPayload =
      .resp (.success "2.0" (.arr (.cons (.num 5) .nil)) (.num 1)) ∧
    (parseJsonRpc decode0 wBoomPayload = .req wBoomReq ∧
     findTool wRpc.tools wBoomReq.method = some boomTool ∧
     boomTool.handler (if jsTruthy wBoomReq.params then wBoomReq.params else .arr .nil) =
       .fail (some "boom")) ∧
    handleMessage wRpc decode0 "ch" wBoomPayload =
      .resp (.failure "2.0" (-32000) "boom" (.num 2)) :=
  ⟨⟨rfl, rfl, rfl, rfl⟩,
   (handleMessage_dispatch wRpc decode0 "ch" wEchoPayload wEchoReq echoTool
      rfl rfl rfl).2 (.arr (.cons (.num 5) .nil)) rfl,
   ⟨rfl, rfl, rfl⟩,
   (handleMessage_dispatch wRpc decode0 "ch" wBoomPayload wBoomReq boomTool
      rfl rfl rfl).1 (some "boom") rfl⟩

/-- Witness for C7: with the concrete decode function, the string
payload "null" makes `_parseJsonRpc` throw instead of returning the
"not a request" result. -/
theorem parseJsonRpc_null_string_throws_witness :
    decode0 "null" = some .null ∧
    (parseJsonRpc decode0 (.str "null") = .thrown ∧
     parseJsonRpc decode0 (.str "null") ≠ .notReq) :=
  ⟨rfl, parseJsonRpc_null_string_throws decode0 rfl⟩

/-- Witness for C10: a payload with `id: null` is answered (here with
the `-32601` envelope, echoing `null`); the same payload without an
`id` member is ignored. -/
theorem handleMessage_id_discriminates_witness :
    (channelOk wRpc "ch" = true ∧
     objLookup wNullIdObj "jsonrpc" = .str "2.0" ∧
     objLookup wNullIdObj "method" = .str "nope" ∧
     objLookup wNullIdObj "id" = .null) ∧
    (∃ env : Envelope,
      handleMessage wRpc decode0 "ch" (.obj wNullIdObj) = .resp env ∧
      env.reqId = .null) ∧
    (objLookup wNoIdObj "jsonrpc" = .str "2.0" ∧
     objLookup wNoIdObj "method" = .str "nope" ∧
     objLookup wNoIdObj "id" = .undefined) ∧
    handleMessage wRpc decode0 "ch" (.obj wNoIdObj) = .nothing :=
  ⟨⟨rfl, rfl, rfl, rfl⟩,
   (handleMessage_id_discriminates wRpc decode0 "ch" wNullIdObj "nope"
      rfl rfl rfl).2 .null rfl (fun hc => JSVal.noConfusion hc),
   ⟨rfl, rfl, rfl⟩,
   (handleMessage_id_discriminates wRpc decode0 "ch" wNoIdObj "nope"
      rfl rfl rfl).1 rfl⟩

/-! ## Canonical codec lemmas -/

theorem renderPairs_length : ∀ fs : JSObj, (renderPairs fs).length = objLen fs
  | .nil => rfl
  | .cons _ v tl => by simp [renderPairs, objLen, renderPairs_length tl]

theorem mem_renderPairs_of_find : ∀ (gs : JSObj) (k : String) (w : JSVal),
    objFind gs k = some w → (k, stableStringify w) ∈ renderPairs gs
  | .nil, k, w, h => by simp [objFind] at h
  | .cons k' v tl, k, w, h => by
    by_cases hk : k' = k
    · subst hk
      rw [objFind, if_pos rfl] at h
      injection h with h
      subst h
      exact List.mem_cons_self _ _
    · rw [objFind, if_neg hk] at h
      exact List.mem_cons_of_mem _ (mem_renderPairs_of_find tl k w h)

theorem hasKey_of_mem_renderPairs : ∀ (fs : JSObj) (p : String × String),
    p ∈ renderPairs fs → hasKey fs p.1 = true
  | .nil, p, h => by simp [renderPairs] at h
  | .cons k v tl, p, h => by
    rw [renderPairs] at h
    rcases List.mem_cons.mp h with rfl | h'
    · simp [hasKey]
    · simp [hasKey, hasKey_of_mem_renderPairs tl p h']

theorem nodup_renderPairs : ∀ fs : JSObj, wfObj fs = true → (renderPairs fs).Nodup
  | .nil, _ => List.nodup_nil
  | .cons k v tl, h => by
    simp only [wfObj, Bool.and_eq_true, Bool.not_eq_true', and_assoc] at h
    obtain ⟨hnk, _, htl⟩ := h
    rw [renderPairs]
    refine List.nodup_cons.mpr ⟨?_, nodup_renderPairs tl htl⟩
    intro hmem
    have hk := hasKey_of_mem_renderPairs tl _ hmem
    rw [hnk] at hk
    exact Bool.false_ne_true hk

theorem wfObj_find : ∀ (gs : JSObj) (k : String) (w : JSVal),
    wfObj gs = true → objFind gs k = some w → wfVal w = true
  | .nil, _, _, _, h => by simp [objFind] at h
  | .cons k' v tl, k, w, hg, h => by
    simp only [wfObj, Bool.and_eq_true, and_assoc] at hg
    by_cases hk : k' = k
    · rw [objFind, if_pos hk] at h
      injection h with h
      subst h
      exact hg.2.1
    · rw [objFind, if_neg hk] at h
      exact wfObj_find tl k w hg.2.2 h

mutual

/-- Structurally equal well-formed values have byte-identical canonical
encodings. -/
theorem structEq_stringify (a b : JSVal) (ha : wfVal a = true) (hb : wfVal b = true)
    (h : structEq a b = true) : stableStringify a = stableStringify b := by
  cases a <;> cases b <;> simp [structEq] at h
  case undefined.undefined => rfl
  case null.null => rfl
  case bool.bool x y => rw [h]
  case num.num x y => rw [h]
  case str.str x y => rw [h]
  case arr.arr xs ys =>
    have hr := arrEq_render xs ys (by simpa [wfVal] using ha) (by simpa [wfVal] using hb) h
    simp only [stableStringify, hr]
  case obj.obj fs gs =>
    obtain ⟨hlen, hm⟩ := h
    have hwf : wfObj fs = true := by simpa [wfVal] using ha
    have hwg : wfObj gs = true := by simpa [wfVal] using hb
    have hsub : renderPairs fs ⊆ renderPairs gs := objMatch_sub fs gs hwf hwg hm
    have hlen' : (renderPairs gs).length ≤ (renderPairs fs).length := by
      rw [renderPairs_length, renderPairs_length, hlen]
    have hperm : List.Perm (renderPairs fs) (renderPairs gs) :=
      (List.subperm_of_subset (nodup_renderPairs fs hwf) hsub).perm_of_length_le hlen'
    have hsort : List.insertionSort pairLe (renderPairs fs) =
        List.insertionSort pairLe (renderPairs gs) :=
      List.eq_of_perm_of_sorted
        ((List.perm_insertionSort _ _).trans (hperm.trans (List.perm_insertionSort _ _).symm))
        (List.sorted_insertionSort _ _) (List.sorted_insertionSort _ _)
    simp only [stableStringify, hsort]
termination_by sizeOf a

/-- Element-wise structurally equal well-formed arrays render the same
element encodings. -/
theorem arrEq_render (as bs : JSArr) (ha : wfArr as = true) (hb : wfArr bs = true)
    (h : arrEq as bs = true) : renderArr as = renderArr bs := by
  cases as <;> cases bs <;> simp [arrEq] at h
  case nil.nil => rfl
  case cons.cons a tl b tl' =>
    have ha' := (Bool.and_eq_true _ _).mp (by simpa [wfArr] using ha)
    have hb' := (Bool.and_eq_true _ _).mp (by simpa [wfArr] using hb)
    have h1 := structEq_stringify a b ha'.1 hb'.1 h.1
    have h2 := arrEq_render tl tl' ha'.2 hb'.2 h.2
    simp only [renderArr, h1, h2]
termination_by sizeOf as

/-- Every rendered pair of a matched object occurs among the rendered
pairs of the matching object. -/
theorem objMatch_sub (fs gs : JSObj) (hf : wfObj fs = true) (hg : wfObj gs = true)
    (h : objMatch fs gs = true) : renderPairs fs ⊆ renderPairs gs := by
  cases fs with
  | nil =>
    intro p hp
    simp [renderPairs] at hp
  | cons k v tl =>
    rw [objMatch, Bool.and_eq_true] at h
    obtain ⟨h1, h2⟩ := h
    simp only [wfObj, Bool.and_eq_true, Bool.not_eq_true', and_assoc] at hf
    intro p hp
    rw [renderPairs] at hp
    rcases List.mem_cons.mp hp with rfl | hp'
    · rcases hfind : objFind gs k with _ | w
      · rw [hfind] at h1
        exact absurd h1 Bool.false_ne_true
      · rw [hfind] at h1
        have hw : wfVal w = true := wfObj_find gs k w hg hfind
        rw [structEq_stringify v w hf.2.1 hw h1]
        exact mem_renderPairs_of_find gs k w hfind
    · exact objMatch_sub tl gs hf.2.2 hg h2 hp'
termination_by sizeOf fs

end

/-- C8: the canonical encoding is determined by structure alone — for
any two well-formed values that are structurally equal (same arrays in
the same order, same object key-value sets regardless of key insertion
order) `stableStringify` produces byte-identical strings; `null` and
`undefined` both encode as the literal `null`; the keys of an object
are emitted sorted ascending; and in particular the canonical
encodings of `{"b":2,"a":1}` and `{"a":1,"b":2}` coincide. -/
theorem stableStringify_canonical :
    (∀ a b : JSVal, wfVal a = true → wfVal b = true → structEq a b = true →
      stableStringify a = stableStringify b) ∧
    (stableStringify .null = "null" ∧ stableStringify .undefined = "null") ∧
    (∀ fs : JSObj, List.Pairwise (fun s t : String => keyLeB s t = true)
      ((List.insertionSort pairLe (renderPairs fs)).map Prod.fst)) ∧
    stableStringify exObjBA = stableStringify exObjAB := by
  refine ⟨structEq_stringify, ⟨rfl, rfl⟩, ?_, by decide⟩
  intro fs
  have hs : List.Pairwise pairLe (List.insertionSort pairLe (renderPairs fs)) :=
    List.sorted_insertionSort pairLe (renderPairs fs)
  refine hs.map Prod.fst ?_
  intro p q hpq
  rcases hpq with h | ⟨h, _⟩
  · exact Bool.or_eq_true_iff.mpr (Or.inl h)
  · unfold keyLeB
    rw [h]
    simp

/-- Witness for C8: the two concrete objects are well-formed and
structurally equal, and their canonical encodings coincide. -/
theorem stableStringify_canonical_witness :
    (wfVal exObjBA = true ∧ wfVal exObjAB = true ∧ structEq exObjBA exObjAB = true) ∧
    stableStringify exObjBA = stableStringify exObjAB :=
  ⟨⟨by decide, by decide, by decide⟩,
   stableStringify_canonical.1 exObjBA exObjAB (by decide) (by decide) (by decide)⟩

/-! ## Invite claim theorem -/

/-- C9: `/sc_invite` never emits an invite without an expiry.  First
conjunct: with no `--ttl` argument and no positive finite configured
default, no invite is emitted (the command fails with the TTL
configuration error).  Second conjunct: every invite that is emitted
has `expiresAt = issuedAt + ttlMs` for a positive resolved `ttlMs`, so
`expiresAt > issuedAt`.  Third conjunct: when an explicit `--ttl`
value of `ttlSec` seconds was given, emission forces `ttlSec > 0` and
`expiresAt = issuedAt + ttlSec * 1000`. -/
theorem scInvite_expiry :
    (∀ (channel invitee pk : String) (addr : Option String) (issuedAt : Int)
       (nonce : String) (inviteTtlMs : Option Int) (sigHex : String),
      (inviteTtlMs = none ∨ ∃ d, inviteTtlMs = some d ∧ d ≤ 0) →
      scInvite channel invitee pk addr issuedAt nonce none inviteTtlMs sigHex = none) ∧
    (∀ (channel invitee pk : String) (addr : Option String) (issuedAt : Int)
       (nonce : String) (ttlArg : Option (Option Int)) (inviteTtlMs : Option Int)
       (sigHex : String) (inv : Invite),
      scInvite channel invitee pk addr issuedAt nonce ttlArg inviteTtlMs sigHex = some inv →
      inv.payload.issuedAt = issuedAt ∧
      inv.payload.issuedAt < inv.payload.expiresAt ∧
      ∃ ttlMs, computeTtlMs ttlArg inviteTtlMs = some ttlMs ∧ 0 < ttlMs ∧
        inv.payload.expiresAt = issuedAt + ttlMs) ∧
    (∀ (channel invitee pk : String) (addr : Option String) (issuedAt : Int)
       (nonce : String) (ttlSec : Int) (inviteTtlMs : Option Int)
       (sigHex : String) (inv : Invite),
      scInvite channel invitee pk addr issuedAt nonce (some (some ttlSec))
        inviteTtlMs sigHex = some inv →
      0 < ttlSec ∧ inv.payload.expiresAt = issuedAt + ttlSec * 1000) := by
  refine ⟨?_, ?_, ?_⟩
  · intro channel invitee pk addr issuedAt nonce inviteTtlMs sigHex hd
    rcases hd with rfl | ⟨d, rfl, hd⟩
    · rfl
    · have hnd : ¬ (0 : Int) < d := by omega
      simp [scInvite, computeTtlMs, hnd]
  · intro channel invitee pk addr issuedAt nonce ttlArg inviteTtlMs sigHex inv h
    unfold scInvite at h
    split at h
    · exact Option.noConfusion h
    · next ttlMs heq =>
      split at h
      · exact Option.noConfusion h
      · next hpos =>
        split at h
        · exact Option.noConfusion h
        · injection h with h
          subst h
          refine ⟨rfl, ?_, ttlMs, heq, by omega, rfl⟩
          show issuedAt < issuedAt + ttlMs
          omega
  · intro channel invitee pk addr issuedAt nonce ttlSec inviteTtlMs sigHex inv h
    unfold scInvite at h
    split at h
    · exact Option.noConfusion h
    · next ttlMs heq =>
      simp only [computeTtlMs, Option.some.injEq] at heq
      split at h
      · exact Option.noConfusion h
      · next hpos =>
        split at h
        · exact Option.noConfusion h
        · injection h with h
          subst h
          have hsec : 0 < ttlSec := by omega
          refine ⟨hsec, ?_⟩
          show issuedAt + ttlMs = issuedAt + ttlSec * 1000
          omega

/-- Witness for C9: with `--ttl 60`, `issuedAt = 100` and a nonempty
signature, the invite is emitted with `expiresAt = 60100`; the theorem
applies to it, and with no TTL and no default the command emits
nothing. -/
theorem scInvite_expiry_witness :
    scInvite "chan" "AB" "pk" none 100 "n1" none none "aa" = none ∧
    (scInvite "chan" "AB" "pk" none 100 "n1" (some (some 60)) none "aa" =
      some { payload := normalizeInvitePayload "chan" "AB" "pk" none 100 60100 "n1" (some 1)
             sig := "aa" } ∧
     (0 < (60 : Int) ∧
      (normalizeInvitePayload "chan" "AB" "pk" none 100 60100 "n1" (some 1)).expiresAt =
        100 + 60 * 1000)) :=
  ⟨scInvite_expiry.1 "chan" "AB" "pk" none 100 "n1" none "aa" (Or.inl rfl),
   by decide,
   scInvite_expiry.2.2 "chan" "AB" "pk" none 100 "n1" 60 none "aa"
     { payload := normalizeInvitePayload "chan" "AB" "pk" none 100 60100 "n1" (some 1)
       sig := "aa" } (by decide)⟩
